import Mathlib

/-!
Verification of `src/src/libs/ParallaxScrollListener.js`.

The module maintains a registry of parallax elements, listens to scroll and
resize events, and recomputes each element's transform offsets per animation
frame.  Geometry is modelled over `ℚ` (JS numbers on the inputs the claims
concern are exact).  DOM reads (`getBoundingClientRect`, `window.scrollY`,
`window.innerHeight`, `offsetHeight`, `offsetWidth`) are passed as explicit
parameters.  Thrown JS errors are modelled with `Except String`.
-/

namespace Parallax

/-- A parsed offset: numeric value plus unit suffix (`"%"`, `"px"`, or `""`). -/
structure ValueUnit where
  value : ℚ
  unit : String
deriving DecidableEq, Repr

/-- Consume a leading run of decimal digits, returning the accumulated number
and the remaining characters. -/
def parseDigits : List Char → Nat → Nat × List Char
  | c :: cs, acc =>
    if c.isDigit then parseDigits cs (acc * 10 + (c.toNat - 48)) else (acc, c :: cs)
  | [], acc => (acc, [])

/-- Modelled from the spec: `parseValueAndUnit` from `src/utils/index` (file not
in the repository snapshot).  Per the spec, an offset prop is a string holding a
numeric value plus an optional `%` or `px` unit (e.g. `"-20%"`, `"30px"`); the
parse yields a `{value, unit}` pair, the unit being the suffix after the
number (empty when absent). -/
def parseValueAndUnit (s : String) : ValueUnit :=
  let cs := s.toList
  let signAndRest : Bool × List Char :=
    match cs with
    | '-' :: rest => (true, rest)
    | _ => (false, cs)
  let digits := parseDigits signAndRest.2 0
  let n : ℚ := (digits.1 : ℚ)
  { value := if signAndRest.1 then -n else n, unit := String.mk digits.2 }

/-- Modelled from the spec: `scaleBetween` from `src/utils/index` (file not in
the repository snapshot).  Per the spec the percent is "linearly rescaled into
the configured min/max offset range": the affine map sending `min ↦ minAllowed`
and `max ↦ maxAllowed`. -/
def scaleBetween (unscaledNum minAllowed maxAllowed min max : ℚ) : ℚ :=
  (maxAllowed - minAllowed) * (unscaledNum - min) / (max - min) + minAllowed

/-- User-supplied configuration of one parallax element (`element.props`). -/
structure Props where
  disabled : Bool
  slowerScrollRate : Bool
  offsetXMin : String
  offsetXMax : String
  offsetYMin : String
  offsetYMax : String
deriving DecidableEq, Repr

/-- Derived parsed offsets (`element.offsets`). -/
structure Offsets where
  xUnit : String
  yUnit : String
  yMin : ValueUnit
  yMax : ValueUnit
  xMin : ValueUnit
  xMax : ValueUnit
deriving DecidableEq, Repr

/-- JS `a || b` on strings: the empty string is falsy. -/
def jsOrString (a b : String) : String := if a = "" then b else a

/-- The error message thrown by `_setupOffsets` on mismatched units. -/
def unitsErrorMsg : String :=
  "Must provide matching units for the min and max offset values of each axis."

/-- `_setupOffsets`: parse the four offset props, throw on a unit mismatch
within an axis, and record the parses plus the per-axis resolved unit.
Transcribed exactly from the source, including the assignment of
`parseValueAndUnit(offsetXMax)` to `xMin` and of `parseValueAndUnit(offsetXMin)`
to `xMax` (lines 194-195 of the source). -/
def setupOffsets (p : Props) : Except String Offsets :=
  let yMin := parseValueAndUnit p.offsetYMin
  let yMax := parseValueAndUnit p.offsetYMax
  let xMin := parseValueAndUnit p.offsetXMax
  let xMax := parseValueAndUnit p.offsetXMin
  if xMin.unit ≠ xMax.unit ∨ yMin.unit ≠ yMax.unit then
    Except.error unitsErrorMsg
  else
    Except.ok
      { xUnit := jsOrString xMin.unit "%"
        yUnit := jsOrString yMin.unit "%"
        yMin := yMin
        yMax := yMax
        xMin := xMin
        xMax := xMax }

/-- Cached geometry of one element (`element.attributes`). -/
structure Attributes where
  top : ℚ
  bottom : ℚ
  elHeight : ℚ
  elWidth : ℚ
  yMaxPx : ℚ
  yMinPx : ℚ
  xMaxPx : ℚ
  xMinPx : ℚ
  totalDist : ℚ
  windowHeight : ℚ
deriving DecidableEq, Repr

/-- The DOM reads `_cacheAttributes` performs on `element._outer` and the
window: bounding rect (viewport-relative), window height, element height and
width, and the current scroll position. -/
structure DomReads where
  rectTop : ℚ
  rectBottom : ℚ
  windowHeight : ℚ
  elHeight : ℚ
  elWidth : ℚ
  scrollY : ℚ
deriving DecidableEq, Repr

/-- `_cacheAttributes`: resolve percent offsets to pixels against the element's
own height (y) or width (x), compute document-relative `top`/`bottom` by adding
the scroll position and the signed min/max pixel offsets, and the total travel
distance `totalDist`. -/
def cacheAttributes (offs : Offsets) (slowerScrollRate : Bool) (d : DomReads) :
    Attributes :=
  let yPercent := offs.yMax.unit = "%" ∨ offs.yMin.unit = "%"
  let xPercent := offs.xMax.unit = "%" ∨ offs.xMin.unit = "%"
  let h100 := d.elHeight / 100
  let yMaxPx := if yPercent then offs.yMax.value * h100 else offs.yMax.value
  let yMinPx := if yPercent then offs.yMin.value * h100 else offs.yMin.value
  let w100 := d.elWidth / 100
  let xMaxPx := if xPercent then offs.xMax.value * w100 else offs.xMax.value
  let xMinPx := if xPercent then offs.xMin.value * w100 else offs.xMin.value
  let top := d.rectTop + d.scrollY + (if slowerScrollRate then yMinPx else yMaxPx * -1)
  let bottom := d.rectBottom + d.scrollY + (if slowerScrollRate then yMaxPx else yMinPx * -1)
  let totalDist := d.windowHeight + (d.elHeight + |yMinPx| + yMaxPx)
  { top := top
    bottom := bottom
    elHeight := d.elHeight
    elWidth := d.elWidth
    yMaxPx := yMaxPx
    yMinPx := yMinPx
    xMaxPx := xMaxPx
    xMinPx := xMinPx
    totalDist := totalDist
    windowHeight := d.windowHeight }

/-- A fully initialised parallax element: props plus derived offsets and cached
attributes (the DOM node handles are irrelevant to the modelled computations
beyond the reads captured in `Attributes`). -/
structure Elem where
  props : Props
  offsets : Offsets
  attributes : Attributes
deriving DecidableEq, Repr

/-- `_isElementInView`: viewport-relative top or bottom edge lies inside the
window, or the element spans the whole window. -/
def isElementInView (e : Elem) (scrollY : ℚ) : Bool :=
  let windowHeight := e.attributes.windowHeight
  let top := e.attributes.top - scrollY
  let bottom := e.attributes.bottom - scrollY
  let topInView := top ≥ 0 ∧ top ≤ windowHeight
  let bottomInView := bottom ≥ 0 ∧ bottom ≤ windowHeight
  let covering := top ≤ 0 ∧ bottom ≥ windowHeight
  decide (topInView ∨ bottomInView ∨ covering)

/-- The `percentMoved` computed by `_setParallaxStyles`: progress (0–100) of the
element through its total travel distance, from the viewport-relative top. -/
def percentMovedAt (e : Elem) (scrollY : ℚ) : ℚ :=
  let top := e.attributes.top - scrollY
  (top * -1 + e.attributes.windowHeight) / e.attributes.totalDist * 100

/-- `_setParallaxStyles`, numeric part: the `(x, y)` pair written into
`translate3d(x xUnit, y yUnit, 0)` on `element._inner`. -/
def setParallaxXY (e : Elem) (scrollY : ℚ) : ℚ × ℚ :=
  let percentMoved := percentMovedAt e scrollY
  if e.props.slowerScrollRate then
    (scaleBetween percentMoved e.offsets.xMin.value e.offsets.xMax.value 0 100,
     scaleBetween percentMoved e.offsets.yMin.value e.offsets.yMax.value 0 100)
  else
    (scaleBetween percentMoved e.offsets.xMax.value e.offsets.xMin.value 0 100,
     scaleBetween percentMoved e.offsets.yMax.value e.offsets.yMin.value 0 100)

/-! ## Frame scheduling (`ticking`, `_handleScroll`, `_updateElementPositions`) -/

/-- The per-frame pass `_updateElementPositions` over one element: a disabled
element is skipped entirely (`return` before anything else); otherwise the
visibility check runs, styles are computed when in view, and `ticking` is set
to `false` at the end of the iteration body.  Returns the new flag and the
styles written (if any). -/
def updateOneElement (scrollY : ℚ) (ticking : Bool) (e : Elem) :
    Bool × Option (ℚ × ℚ) :=
  if e.props.disabled then (ticking, none)
  else
    (false, if isElementInView e scrollY then some (setParallaxXY e scrollY) else none)

/-- `_updateElementPositions`: fold of `updateOneElement` over the registry,
threading the `ticking` flag and collecting the style writes. -/
def updateElementPositions (elements : List Elem) (scrollY : ℚ) (ticking : Bool) :
    Bool × List (Option (ℚ × ℚ)) :=
  match elements with
  | [] => (ticking, [])
  | e :: rest =>
    let r := updateOneElement scrollY ticking e
    let rec' := updateElementPositions rest scrollY r.1
    (rec'.1, r.2 :: rec'.2)

/-- The scroll-handler state `_handleScroll` touches: tracked scroll position,
last direction, and the scheduling flag. -/
structure ScrollState where
  scrollY : ℚ
  scrollDown : Option Bool
  ticking : Bool
deriving DecidableEq, Repr

/-- `_handleScroll`: record the new scroll position and direction; schedule a
frame (set `ticking`) only when no frame is pending and the registry is
non-empty.  Returns the new state and whether `requestAnimationFrame` was
called. -/
def handleScroll (elements : List Elem) (st : ScrollState) (windowScrollY : ℚ) :
    ScrollState × Bool :=
  let prevScrollY := st.scrollY
  let scrollY := windowScrollY
  let scrollDown := some (decide (scrollY > prevScrollY))
  if !st.ticking ∧ elements.length > 0 then
    ({ scrollY := scrollY, scrollDown := scrollDown, ticking := true }, true)
  else
    ({ scrollY := scrollY, scrollDown := scrollDown, ticking := st.ticking }, false)

/-- A burst of scroll events with no frame callback in between: fold
`handleScroll` over the successive `window.scrollY` readings, counting how many
frames were requested. -/
def scrollBurst (elements : List Elem) (st : ScrollState) :
    List ℚ → ScrollState × Nat
  | [] => (st, 0)
  | y :: ys =>
    let r := handleScroll elements st y
    let rest := scrollBurst elements r.1 ys
    (rest.1, (if r.2 then 1 else 0) + rest.2)

/-! ## Registry (`elements`, `createElement`, `updateElement`, `removeElement`)

At the registry level an element is its `id` plus its (possibly absent) `props`
object; `offsets`/`attributes` are derived caches recomputed by `update()` and
modelled by the geometry functions above.  A JS options object may carry its
own `id` key, which the spread `{id, ...options}` and `Object.assign` let win
over the assigned id. -/

/-- A registry entry: assigned id and the user props (`none` models a JS
`undefined` `props` field). -/
structure RElem where
  id : Int
  props : Option Props
deriving DecidableEq, Repr

/-- An options object passed to `createElement`/`updateElement`; fields absent
from the JS object are `none`. -/
structure Options where
  id : Option Int
  props : Option Props
deriving DecidableEq, Repr

/-- Controller registry state.  `extra` models the stray own-property that
`elements[-1] = element` creates on the JS array object: it is not part of the
index sequence `0..length-1` and is never visited by `forEach`. -/
structure Registry where
  elements : List RElem
  nextId : Int
  extra : Option RElem
deriving DecidableEq, Repr

/-- The initial controller registry: empty element list, id counter 0. -/
def initRegistry : Registry := { elements := [], nextId := 0, extra := none }

/-- The pass `_updateElementAttributes` runs over one registry entry:
disabled elements are skipped; `element.props.disabled` on an absent props
object throws a `TypeError`; otherwise `_setupOffsets` runs and may throw the
unit-mismatch error (`_cacheAttributes` itself throws nothing the claims
concern; its DOM reads are modelled separately). -/
def updateAttributesOne (e : RElem) : Except String Unit :=
  match e.props with
  | none => Except.error "TypeError"
  | some p =>
    if p.disabled then Except.ok ()
    else
      match setupOffsets p with
      | Except.error s => Except.error s
      | Except.ok _ => Except.ok ()

/-- `_updateElementAttributes` over the registry: stops at the first thrown
error (an exception aborts the `forEach`). -/
def updateElementAttributes : List RElem → Except String Unit
  | [] => Except.ok ()
  | e :: rest =>
    match updateAttributesOne e with
    | Except.error s => Except.error s
    | Except.ok _ => updateElementAttributes rest

/-- `update()`: `_updateElementAttributes` then `_updateElementPositions`; an
error in the former propagates before positions run.  Only the error behaviour
matters at registry level. -/
def updateRun (r : Registry) : Except String Unit :=
  updateElementAttributes r.elements

/-- `createElement(options)`: assign the next id, build `{id, ...options}`
(an `id` key in options wins over the assigned one), push onto the registry,
then run `update()`; the thrown error, if any, propagates after the push. -/
def createElement (r : Registry) (options : Options) :
    Registry × RElem × Except String Unit :=
  let newId := r.nextId + 1
  let element : RElem := { id := options.id.getD newId, props := options.props }
  let r' : Registry := { r with nextId := newId, elements := r.elements ++ [element] }
  (r', element, updateRun r')

/-- `Object.assign({}, elements[index], options)`: start from the found entry
(or from `{}` when `index` is `-1` and `elements[-1]` is `undefined`), with the
options' own keys winning. -/
def mergeOptions (base : Option RElem) (options : Options) : RElem :=
  { id := options.id.getD ((base.map (·.id)).getD 0)
    props := match options.props with
      | some p => some p
      | none => (base.map (·.props)).getD none }

/-- JS `Array.prototype.findIndex` semantics: index of the first entry
satisfying the predicate (`none` models `-1`). -/
def findIndexJs (p : RElem → Bool) : List RElem → Option Nat
  | [] => none
  | e :: rest => if p e then some 0 else (findIndexJs p rest).map (· + 1)

/-- `updateElement(id, options)`: find by id; when found, replace the entry at
that index with the merge; when not found (`findIndex` gives `-1`),
`elements[-1] = element` writes the stray `extra` property and leaves the index
sequence untouched.  Then run `update()`. -/
def updateElement (r : Registry) (targetId : Int) (options : Options) :
    Registry × Except String Unit :=
  match findIndexJs (fun el => el.id == targetId) r.elements with
  | some i =>
    let element := mergeOptions (r.elements.get? i) options
    let r' : Registry := { r with elements := r.elements.set i element }
    (r', updateRun r')
  | none =>
    let element := mergeOptions none options
    let r' : Registry := { r with extra := some element }
    (r', updateRun r')

/-- `removeElement(element)`: remove by identity (`indexOf`); no-op when not
present. -/
def removeElement (r : Registry) (element : RElem) : Registry :=
  { r with elements := r.elements.erase element }

/-- One public registry operation, for stating lifetime invariants. -/
inductive RegistryOp where
  | create (options : Options)
  | update (targetId : Int) (options : Options)
  | remove (element : RElem)
deriving DecidableEq, Repr

/-- Apply one operation to the registry (discarding return values and thrown
errors: an error never unwinds the registry mutations already made). -/
def applyOp (r : Registry) : RegistryOp → Registry
  | .create options => (createElement r options).1
  | .update targetId options => (updateElement r targetId options).1
  | .remove element => removeElement r element

/-- Run a sequence of operations from a registry state. -/
def runOps (r : Registry) : List RegistryOp → Registry
  | [] => r
  | op :: ops => runOps (applyOp r op) ops

/-- An options object that carries no `id` key of its own. -/
def Options.idFree (o : Options) : Prop := o.id = none

/-- An operation whose options carry no `id` key (removals always qualify). -/
def RegistryOp.idFree : RegistryOp → Prop
  | .create options => options.idFree
  | .update _ options => options.idFree
  | .remove _ => True

/-! ## Derived predicates and sample data used in statements -/

/-- The unit-mismatch condition `_setupOffsets` tests: the parsed units of an
axis's two offsets differ (stated in the code's own comparison orientation). -/
def mismatchUnits (p : Props) : Prop :=
  (parseValueAndUnit p.offsetXMax).unit ≠ (parseValueAndUnit p.offsetXMin).unit ∨
  (parseValueAndUnit p.offsetYMin).unit ≠ (parseValueAndUnit p.offsetYMax).unit

instance (p : Props) : Decidable (mismatchUnits p) := by
  unfold mismatchUnits; infer_instance

/-- Every entry of the registry survives the attribute pass without throwing. -/
def validRegistry (r : Registry) : Prop :=
  ∀ e ∈ r.elements, updateAttributesOne e = Except.ok ()

/-- The id invariant of the registry: ids appear in strictly increasing
creation order, and none exceeds the id counter. -/
def goodRegistry (r : Registry) : Prop :=
  (r.elements.map (·.id)).Sorted (· < ·) ∧ ∀ e ∈ r.elements, e.id ≤ r.nextId

/-- Sample valid props: `-20%`/`20%` on y, `0%`/`0%` on x, both flags off. -/
def sampleProps : Props :=
  { disabled := false, slowerScrollRate := false
    offsetXMin := "0%", offsetXMax := "0%"
    offsetYMin := "-20%", offsetYMax := "20%" }

/-- Sample props with `disabled` set. -/
def disabledProps : Props := { sampleProps with disabled := true }

/-- Sample props with mismatched x-axis units (`px` vs `%`). -/
def mismatchedProps : Props := { sampleProps with offsetXMin := "10px" }

/-- Mismatched x-axis units on a disabled element. -/
def disabledMismatchedProps : Props := { mismatchedProps with disabled := true }

/-- Props whose x offsets parse to different values with equal units, to
exhibit which prop lands in which offsets field. -/
def swapProbeProps : Props :=
  { sampleProps with offsetXMin := "10px", offsetXMax := "20px" }

/-- The parsed offsets of `sampleProps` (y range −20%..20%). -/
def sampleOffsets : Offsets :=
  { xUnit := "%", yUnit := "%"
    yMin := ⟨-20, "%"⟩, yMax := ⟨20, "%"⟩
    xMin := ⟨0, "%"⟩, xMax := ⟨0, "%"⟩ }

/-- Build a sample element from a cached geometry, over `sampleProps` with a
chosen `disabled`/`slowerScrollRate` setting. -/
def mkElem (disabled slower : Bool) (top bottom windowHeight totalDist : ℚ) : Elem :=
  { props := { sampleProps with disabled := disabled, slowerScrollRate := slower }
    offsets := sampleOffsets
    attributes :=
      { top := top, bottom := bottom, elHeight := 100, elWidth := 50
        yMaxPx := 20, yMinPx := -20, xMaxPx := 0, xMinPx := 0
        totalDist := totalDist, windowHeight := windowHeight } }

/-- A disabled sample element, for evaluating the frame pass. -/
def disabledElem : Elem := mkElem true false 0 100 50 100

instance (o : Options) : Decidable o.idFree := by
  unfold Options.idFree; infer_instance

instance (op : RegistryOp) : Decidable op.idFree := by
  cases op <;> simp only [RegistryOp.idFree] <;> infer_instance

/-- A sample operation sequence: two creations, an update, a removal. -/
def opsEx : List RegistryOp :=
  [.create ⟨none, some sampleProps⟩, .create ⟨none, some disabledProps⟩,
   .update 1 ⟨none, some sampleProps⟩, .remove ⟨2, some disabledProps⟩]

/-! ## Helper lemmas -/

theorem setupOffsets_error_of_mismatch (p : Props) (h : mismatchUnits p) :
    setupOffsets p = Except.error unitsErrorMsg := by
  unfold mismatchUnits at h
  simp only [setupOffsets]
  rw [if_pos h]

theorem setupOffsets_ok_of_match (p : Props) (h : ¬ mismatchUnits p) :
    ∃ o, setupOffsets p = Except.ok o := by
  unfold mismatchUnits at h
  simp only [setupOffsets]
  rw [if_neg h]
  exact ⟨_, rfl⟩

theorem updateAttributesOne_ok_of_all (l : List RElem)
    (hl : ∀ x ∈ l, updateAttributesOne x = Except.ok ()) :
    updateElementAttributes l = Except.ok () := by
  induction l with
  | nil => rfl
  | cons a as ih =>
    have ha := hl a (List.mem_cons_self a as)
    simp only [updateElementAttributes, ha]
    exact ih fun x hx => hl x (List.mem_cons_of_mem a hx)

theorem updateElementAttributes_append (l : List RElem) (e : RElem)
    (hl : ∀ x ∈ l, updateAttributesOne x = Except.ok ()) :
    updateElementAttributes (l ++ [e]) = updateAttributesOne e := by
  induction l with
  | nil =>
    simp only [List.nil_append, updateElementAttributes]
    cases hx : updateAttributesOne e <;> simp [hx, updateElementAttributes]
  | cons a as ih =>
    have ha := hl a (List.mem_cons_self a as)
    simp only [List.cons_append, updateElementAttributes, ha]
    exact ih fun x hx => hl x (List.mem_cons_of_mem a hx)

theorem updateElementAttributes_set (l : List RElem) (i : ℕ) (e : RElem)
    (hi : i < l.length)
    (hl : ∀ x ∈ l, updateAttributesOne x = Except.ok ()) :
    updateElementAttributes (l.set i e) = updateAttributesOne e := by
  induction l generalizing i with
  | nil => simp at hi
  | cons a as ih =>
    cases i with
    | zero =>
      simp only [List.set_cons_zero, updateElementAttributes]
      have has : updateElementAttributes as = Except.ok () :=
        updateAttributesOne_ok_of_all as fun x hx => hl x (List.mem_cons_of_mem a hx)
      cases hx : updateAttributesOne e <;> simp [hx, has]
    | succ n =>
      have ha := hl a (List.mem_cons_self a as)
      simp only [List.set_cons_succ, updateElementAttributes, ha]
      exact ih n (by simpa using hi) fun x hx => hl x (List.mem_cons_of_mem a hx)

theorem findIndexJs_eq_none_iff (p : RElem → Bool) (l : List RElem) :
    findIndexJs p l = none ↔ ∀ e ∈ l, p e = false := by
  induction l with
  | nil => simp [findIndexJs]
  | cons a as ih =>
    by_cases ha : p a <;> simp [findIndexJs, ha, ih]

theorem findIndexJs_get (p : RElem → Bool) (l : List RElem) (i : ℕ)
    (h : findIndexJs p l = some i) :
    i < l.length ∧ ∃ e, l.get? i = some e ∧ p e = true := by
  induction l generalizing i with
  | nil => simp [findIndexJs] at h
  | cons a as ih =>
    by_cases ha : p a
    · simp only [findIndexJs, ha, if_pos] at h
      cases h
      exact ⟨by simp, a, rfl, ha⟩
    · simp only [findIndexJs, ha, Bool.false_eq_true, if_false, Option.map_eq_some'] at h
      obtain ⟨j, hj, rfl⟩ := h
      obtain ⟨hlt, e, he, hpe⟩ := ih j hj
      exact ⟨by simpa using hlt, e, by simpa using he, hpe⟩

theorem map_id_set (l : List RElem) (i : ℕ) (x el : RElem)
    (hg : l.get? i = some el) (hf : x.id = el.id) :
    (l.set i x).map (·.id) = l.map (·.id) := by
  induction l generalizing i with
  | nil => simp at hg
  | cons a as ih =>
    cases i with
    | zero =>
      simp only [List.get?_cons_zero, Option.some_inj] at hg
      subst hg
      simp [hf]
    | succ n =>
      simp only [List.get?_cons_succ] at hg
      simp [ih n hg]

/-! ## Claim theorems -/

/-- C2: the visibility check returns true iff the viewport-relative top lies in
`[0, windowHeight]`, or the viewport-relative bottom does, or the element spans
the viewport; in particular it is true when the top is exactly 0 or the bottom
exactly equals `windowHeight`, and false for an element entirely above or
entirely below the viewport. -/
theorem isElementInView_characterization (e : Elem) (s : ℚ) :
    (isElementInView e s = true ↔
      (0 ≤ e.attributes.top - s ∧ e.attributes.top - s ≤ e.attributes.windowHeight) ∨
      (0 ≤ e.attributes.bottom - s ∧ e.attributes.bottom - s ≤ e.attributes.windowHeight) ∨
      (e.attributes.top - s ≤ 0 ∧ e.attributes.windowHeight ≤ e.attributes.bottom - s)) ∧
    (0 ≤ e.attributes.windowHeight → e.attributes.top - s = 0 →
      isElementInView e s = true) ∧
    (0 ≤ e.attributes.windowHeight → e.attributes.bottom - s = e.attributes.windowHeight →
      isElementInView e s = true) ∧
    (e.attributes.bottom - s < 0 → e.attributes.top ≤ e.attributes.bottom →
      0 ≤ e.attributes.windowHeight → isElementInView e s = false) ∧
    (e.attributes.windowHeight < e.attributes.top - s → e.attributes.top ≤ e.attributes.bottom →
      0 ≤ e.attributes.windowHeight → isElementInView e s = false) := by
  have hchar : isElementInView e s = true ↔
      (0 ≤ e.attributes.top - s ∧ e.attributes.top - s ≤ e.attributes.windowHeight) ∨
      (0 ≤ e.attributes.bottom - s ∧ e.attributes.bottom - s ≤ e.attributes.windowHeight) ∨
      (e.attributes.top - s ≤ 0 ∧ e.attributes.windowHeight ≤ e.attributes.bottom - s) := by
    simp [isElementInView, ge_iff_le]
  refine ⟨hchar, ?_, ?_, ?_, ?_⟩
  · intro hw ht
    exact hchar.mpr (Or.inl ⟨le_of_eq ht.symm, ht ▸ hw⟩)
  · intro hw hb
    exact hchar.mpr (Or.inr (Or.inl ⟨hb ▸ hw, le_of_eq hb⟩))
  · intro hb htb hw
    simp only [isElementInView, ge_iff_le, decide_eq_false_iff_not]
    push_neg
    refine ⟨fun h1 => by linarith, fun h1 => by linarith, fun h1 => by linarith⟩
  · intro ht htb hw
    simp only [isElementInView, ge_iff_le, decide_eq_false_iff_not]
    push_neg
    refine ⟨fun h1 => by linarith, fun h1 => by linarith, fun h1 => by linarith⟩

/-- C2 witness: concrete evaluations of the visibility check — top edge at 0,
bottom edge at `windowHeight`, entirely above, entirely below. -/
theorem isElementInView_characterization_witness :
    isElementInView (mkElem false false 5 105 50 200) 5 = true ∧
    isElementInView (mkElem false false 5 50 50 200) 0 = true ∧
    isElementInView (mkElem false false 5 15 50 200) 100 = false ∧
    isElementInView (mkElem false false 200 300 50 200) 0 = false :=
  ⟨(isElementInView_characterization (mkElem false false 5 105 50 200) 5).2.1
      (by norm_num [mkElem]) (by norm_num [mkElem]),
   (isElementInView_characterization (mkElem false false 5 50 50 200) 0).2.2.1
      (by norm_num [mkElem]) (by norm_num [mkElem]),
   (isElementInView_characterization (mkElem false false 5 15 50 200) 100).2.2.2.1
      (by norm_num [mkElem]) (by norm_num [mkElem]) (by norm_num [mkElem]),
   (isElementInView_characterization (mkElem false false 200 300 50 200) 0).2.2.2.2
      (by norm_num [mkElem]) (by norm_num [mkElem]) (by norm_num [mkElem])⟩

/-- C1: the style computation sets
`percentMoved = (-top + windowHeight) / totalDist * 100` with `top` taken
viewport-relative, rescales that percent from `[0,100]` into the configured
per-axis range with the direction flipped when `slowerScrollRate` is true, and
in particular with `slowerScrollRate = false`, `yMin = -20`, `yMax = 20`, the y
offset at `percentMoved = 50` is 0. -/
theorem setParallaxStyles_formula (e : Elem) (s : ℚ) :
    percentMovedAt e s =
      (-(e.attributes.top - s) + e.attributes.windowHeight) / e.attributes.totalDist * 100 ∧
    (e.props.slowerScrollRate = false →
      setParallaxXY e s =
        (scaleBetween (percentMovedAt e s) e.offsets.xMax.value e.offsets.xMin.value 0 100,
         scaleBetween (percentMovedAt e s) e.offsets.yMax.value e.offsets.yMin.value 0 100)) ∧
    (e.props.slowerScrollRate = true →
      setParallaxXY e s =
        (scaleBetween (percentMovedAt e s) e.offsets.xMin.value e.offsets.xMax.value 0 100,
         scaleBetween (percentMovedAt e s) e.offsets.yMin.value e.offsets.yMax.value 0 100)) ∧
    (e.props.slowerScrollRate = false → e.offsets.yMin.value = -20 →
      e.offsets.yMax.value = 20 → percentMovedAt e s = 50 →
      (setParallaxXY e s).2 = 0) := by
  refine ⟨?_, ?_, ?_, ?_⟩
  · simp only [percentMovedAt]
    ring
  · intro h
    simp [setParallaxXY, h]
  · intro h
    simp [setParallaxXY, h]
  · intro h1 h2 h3 h4
    simp [setParallaxXY, h1, h4, h2, h3, scaleBetween]
    norm_num

/-- C1 witness: a concrete element (window 50, travel 100, y range −20..20,
`slowerScrollRate = false`) sits at `percentMoved = 50` and gets y offset 0. -/
theorem setParallaxStyles_formula_witness :
    percentMovedAt (mkElem false false 0 100 50 100) 0 = 50 ∧
    (setParallaxXY (mkElem false false 0 100 50 100) 0).2 = 0 :=
  ⟨by norm_num [percentMovedAt, mkElem],
   (setParallaxStyles_formula (mkElem false false 0 100 50 100) 0).2.2.2
      (by decide) (by norm_num [mkElem, sampleOffsets])
      (by norm_num [mkElem, sampleOffsets])
      (by norm_num [percentMovedAt, mkElem])⟩

/-- C6: with cached attributes fixed and `totalDist > 0`, `percentMoved` is
monotonically non-decreasing in the scroll position, and returning to the same
scroll position reproduces the same transform output. -/
theorem percentMoved_monotone (e : Elem) (s1 s2 : ℚ) :
    (0 < e.attributes.totalDist → s1 ≤ s2 →
      percentMovedAt e s1 ≤ percentMovedAt e s2) ∧
    (s1 = s2 → setParallaxXY e s1 = setParallaxXY e s2) := by
  constructor
  · intro hD hs
    simp only [percentMovedAt]
    have hnum : (e.attributes.top - s1) * -1 + e.attributes.windowHeight ≤
        (e.attributes.top - s2) * -1 + e.attributes.windowHeight := by linarith
    have hdiv : ((e.attributes.top - s1) * -1 + e.attributes.windowHeight) /
        e.attributes.totalDist ≤
        ((e.attributes.top - s2) * -1 + e.attributes.windowHeight) /
        e.attributes.totalDist := by
      gcongr
    exact mul_le_mul_of_nonneg_right hdiv (by norm_num)
  · intro h
    rw [h]

/-- C6 witness: on a concrete element with positive travel distance, scrolling
from 0 to 10 does not decrease `percentMoved`. -/
theorem percentMoved_monotone_witness :
    0 < (mkElem false false 0 100 50 100).attributes.totalDist ∧
    percentMovedAt (mkElem false false 0 100 50 100) 0 ≤
      percentMovedAt (mkElem false false 0 100 50 100) 10 ∧
    setParallaxXY (mkElem false false 0 100 50 100) 10 =
      setParallaxXY (mkElem false false 0 100 50 100) 10 :=
  ⟨by decide,
   (percentMoved_monotone (mkElem false false 0 100 50 100) 0 10).1
      (by decide) (by decide),
   (percentMoved_monotone (mkElem false false 0 100 50 100) 10 10).2 rfl⟩

/-- C5: the attribute cache computes document-relative `top` as
`rect.top + scrollY` plus `yMinPx` (slower) or `-yMaxPx` (otherwise), `bottom`
as `rect.bottom + scrollY` plus `yMaxPx` (slower) or `-yMinPx` (otherwise),
resolves percent offsets against the element's own height (y) or width (x),
and sets `totalDist = windowHeight + elHeight + |yMinPx| + yMaxPx`. -/
theorem cacheAttributes_formula (offs : Offsets) (slower : Bool) (d : DomReads) :
    (cacheAttributes offs slower d).top =
      d.rectTop + d.scrollY +
        (if slower then (cacheAttributes offs slower d).yMinPx
         else -(cacheAttributes offs slower d).yMaxPx) ∧
    (cacheAttributes offs slower d).bottom =
      d.rectBottom + d.scrollY +
        (if slower then (cacheAttributes offs slower d).yMaxPx
         else -(cacheAttributes offs slower d).yMinPx) ∧
    ((offs.yMax.unit = "%" ∨ offs.yMin.unit = "%") →
      (cacheAttributes offs slower d).yMaxPx = offs.yMax.value * d.elHeight / 100 ∧
      (cacheAttributes offs slower d).yMinPx = offs.yMin.value * d.elHeight / 100) ∧
    ((offs.xMax.unit = "%" ∨ offs.xMin.unit = "%") →
      (cacheAttributes offs slower d).xMaxPx = offs.xMax.value * d.elWidth / 100 ∧
      (cacheAttributes offs slower d).xMinPx = offs.xMin.value * d.elWidth / 100) ∧
    (cacheAttributes offs slower d).totalDist =
      d.windowHeight + d.elHeight + |(cacheAttributes offs slower d).yMinPx| +
        (cacheAttributes offs slower d).yMaxPx := by
  simp only [cacheAttributes]
  refine ⟨?_, ?_, ?_, ?_, ?_⟩
  · cases slower <;> simp
  · cases slower <;> simp
  · intro h
    rw [if_pos h, if_pos h]
    constructor <;> ring
  · intro h
    rw [if_pos h, if_pos h]
    constructor <;> ring
  · ring

/-- C5 witness: concrete cache over the sample offsets (y range −20%..20%,
element height 100, window 500, rect top 40, bottom 140, scroll 1000, not
slower): top = 1020, bottom = 1160, yMaxPx = 20, yMinPx = −20,
totalDist = 640. -/
theorem cacheAttributes_formula_witness :
    (cacheAttributes sampleOffsets false
      ⟨40, 140, 500, 100, 50, 1000⟩).top = 40 + 1000 + -20 ∧
    (cacheAttributes sampleOffsets false
      ⟨40, 140, 500, 100, 50, 1000⟩).yMaxPx = 20 * (100 : ℚ) / 100 ∧
    (cacheAttributes sampleOffsets false
      ⟨40, 140, 500, 100, 50, 1000⟩).yMinPx = -20 * (100 : ℚ) / 100 :=
  ⟨by have h := (cacheAttributes_formula sampleOffsets false
        ⟨40, 140, 500, 100, 50, 1000⟩).1
      rw [h]
      norm_num [cacheAttributes, sampleOffsets],
   (cacheAttributes_formula sampleOffsets false
      ⟨40, 140, 500, 100, 50, 1000⟩).2.2.1 (Or.inl rfl) |>.1,
   (cacheAttributes_formula sampleOffsets false
      ⟨40, 140, 500, 100, 50, 1000⟩).2.2.1 (Or.inl rfl) |>.2⟩

/-- C4 (code evaluation): `_setupOffsets` assigns the parse of `offsetXMax` to
`offsets.xMin` and the parse of `offsetXMin` to `offsets.xMax` (source lines
194–195).  With `offsetXMin = "10px"`, `offsetXMax = "20px"`, the stored
`offsets.xMin` is `⟨20, "px"⟩`, not the parse `⟨10, "px"⟩` of `offsetXMin`. -/
theorem setupOffsets_x_swapped :
    parseValueAndUnit swapProbeProps.offsetXMin = ⟨10, "px"⟩ ∧
    parseValueAndUnit swapProbeProps.offsetXMax = ⟨20, "px"⟩ ∧
    setupOffsets swapProbeProps = Except.ok
      { xUnit := "px", yUnit := "%"
        yMin := ⟨-20, "%"⟩, yMax := ⟨20, "%"⟩
        xMin := ⟨20, "px"⟩, xMax := ⟨10, "px"⟩ } := by
  refine ⟨by decide, by decide, ?_⟩
  rfl

/-- C3 counterexample: a configuration with mismatched x-axis units but
`disabled = true`.  The offset-setup step run on it would throw, yet neither
`createElement` nor `updateElement` raises any error, because the attribute
pass skips disabled elements before the setup step runs. -/
theorem disabled_mismatch_not_propagated :
    mismatchUnits disabledMismatchedProps ∧
    setupOffsets disabledMismatchedProps = Except.error unitsErrorMsg ∧
    (createElement initRegistry ⟨none, some disabledMismatchedProps⟩).2.2 =
      Except.ok () ∧
    (updateElement ⟨[⟨1, some disabledMismatchedProps⟩], 1, none⟩ 1
        ⟨none, some disabledMismatchedProps⟩).2 = Except.ok () :=
  ⟨by decide, rfl, rfl, rfl⟩

/-- C3 (amended): `_setupOffsets` throws exactly on mismatched per-axis units,
and for a non-disabled configuration the error propagates to the caller of
`createElement` and of `updateElement` (over a registry whose other entries
pass the attribute pass); a matching-units configuration raises no error. -/
theorem setupOffsets_error_propagation (p : Props) (r : Registry) (tid : Int) :
    (setupOffsets p = Except.error unitsErrorMsg ↔ mismatchUnits p) ∧
    (validRegistry r → p.disabled = false →
      (createElement r ⟨none, some p⟩).2.2 =
        if mismatchUnits p then Except.error unitsErrorMsg else Except.ok ()) ∧
    (validRegistry r → p.disabled = false → (∃ e ∈ r.elements, e.id = tid) →
      (updateElement r tid ⟨none, some p⟩).2 =
        if mismatchUnits p then Except.error unitsErrorMsg else Except.ok ()) := by
  have hone : ∀ (e : RElem), e.props = some p → p.disabled = false →
      updateAttributesOne e =
        (if mismatchUnits p then Except.error unitsErrorMsg else Except.ok ()) := by
    intro e hp hd
    simp only [updateAttributesOne, hp, hd, Bool.false_eq_true, if_false]
    by_cases hm : mismatchUnits p
    · rw [setupOffsets_error_of_mismatch p hm, if_pos hm]
    · obtain ⟨o, ho⟩ := setupOffsets_ok_of_match p hm
      rw [ho, if_neg hm]
  refine ⟨?_, ?_, ?_⟩
  · constructor
    · intro h
      by_contra hm
      obtain ⟨o, ho⟩ := setupOffsets_ok_of_match p hm
      rw [ho] at h
      exact Except.noConfusion h
    · exact setupOffsets_error_of_mismatch p
  · intro hv hd
    show updateElementAttributes (r.elements ++ [⟨r.nextId + 1, some p⟩]) = _
    rw [updateElementAttributes_append r.elements _ hv]
    exact hone _ rfl hd
  · rintro hv hd ⟨e, he, hid⟩
    cases hf : findIndexJs (fun el => el.id == tid) r.elements with
    | none =>
      exfalso
      have := (findIndexJs_eq_none_iff _ _).mp hf e he
      simp [hid] at this
    | some i =>
      obtain ⟨hlt, el, hel, _⟩ := findIndexJs_get _ _ i hf
      simp only [updateElement, hf]
      show updateElementAttributes
        (r.elements.set i (mergeOptions (r.elements.get? i) ⟨none, some p⟩)) = _
      rw [updateElementAttributes_set r.elements i _ hlt hv]
      exact hone _ rfl hd

/-- C3 witness: on the empty registry, creating a non-disabled element with
`"10px"`/`"0%"` x offsets throws the unit error to the caller, while the fully
percent-based sample configuration creates without error. -/
theorem setupOffsets_error_propagation_witness :
    (createElement initRegistry ⟨none, some mismatchedProps⟩).2.2 =
      Except.error unitsErrorMsg ∧
    (createElement initRegistry ⟨none, some sampleProps⟩).2.2 = Except.ok () := by
  constructor
  · have h := (setupOffsets_error_propagation mismatchedProps initRegistry 0).2.1
      (fun e he => absurd he (List.not_mem_nil e)) rfl
    rw [h, if_pos (by decide)]
  · have h := (setupOffsets_error_propagation sampleProps initRegistry 0).2.1
      (fun e he => absurd he (List.not_mem_nil e)) rfl
    rw [h, if_neg (by decide)]

/-- C8: `updateElement` with an id that matches no registry entry leaves the
registry's element sequence exactly as it was, for every options value. -/
theorem updateElement_unknown_id_noop (r : Registry) (tid : Int) (opts : Options)
    (h : ∀ e ∈ r.elements, e.id ≠ tid) :
    (updateElement r tid opts).1.elements = r.elements := by
  have hf : findIndexJs (fun el => el.id == tid) r.elements = none :=
    (findIndexJs_eq_none_iff _ _).mpr fun e he => by
      simp only [beq_eq_false_iff_ne, ne_eq]
      exact h e he
  simp only [updateElement, hf]

/-- C8 witness: updating id 2 in a one-element registry holding only id 1
leaves the element sequence unchanged. -/
theorem updateElement_unknown_id_noop_witness :
    (updateElement ⟨[⟨1, some sampleProps⟩], 1, none⟩ 2 ⟨none, none⟩).1.elements =
      [⟨1, some sampleProps⟩] :=
  updateElement_unknown_id_noop ⟨[⟨1, some sampleProps⟩], 1, none⟩ 2 ⟨none, none⟩
    (by decide)

/-- C10: `createElement` is not atomic on error — the new element is appended
before its offsets are validated, so with mismatched units (on a non-disabled
element, over an otherwise valid registry) the call throws the unit error while
the invalid element stays in the registry, whose length grew by one. -/
theorem createElement_not_atomic (r : Registry) (p : Props)
    (hv : validRegistry r) (hd : p.disabled = false) (hm : mismatchUnits p) :
    (createElement r ⟨none, some p⟩).1.elements.length = r.elements.length + 1 ∧
    (createElement r ⟨none, some p⟩).1.elements =
      r.elements ++ [(createElement r ⟨none, some p⟩).2.1] ∧
    (createElement r ⟨none, some p⟩).2.2 = Except.error unitsErrorMsg := by
  refine ⟨by simp [createElement], rfl, ?_⟩
  show updateElementAttributes (r.elements ++ [⟨r.nextId + 1, some p⟩]) = _
  rw [updateElementAttributes_append r.elements _ hv]
  simp only [updateAttributesOne, hd, Bool.false_eq_true, if_false]
  rw [setupOffsets_error_of_mismatch p hm]

/-- C10 witness: creating the mismatched `"10px"`/`"0%"` configuration on the
empty registry throws, yet the registry now has one (invalid) element. -/
theorem createElement_not_atomic_witness :
    (createElement initRegistry ⟨none, some mismatchedProps⟩).1.elements.length = 1 ∧
    (createElement initRegistry ⟨none, some mismatchedProps⟩).2.2 =
      Except.error unitsErrorMsg :=
  ⟨by
    have h := (createElement_not_atomic initRegistry mismatchedProps
      (fun e he => absurd he (List.not_mem_nil e)) rfl (by decide)).1
    simpa [initRegistry] using h,
   (createElement_not_atomic initRegistry mismatchedProps
      (fun e he => absurd he (List.not_mem_nil e)) rfl (by decide)).2.2⟩

theorem scrollBurst_count_le (elems : List Elem) (ys : List ℚ) :
    ∀ st : ScrollState, (scrollBurst elems st ys).2 ≤ if st.ticking then 0 else 1 := by
  induction ys with
  | nil =>
    intro st
    exact Nat.zero_le _
  | cons y ys ih =>
    intro st
    simp only [scrollBurst]
    have hrec := ih (handleScroll elems st y).1
    by_cases hst : st.ticking = true
    · have h2 : (handleScroll elems st y).2 = false := by simp [handleScroll, hst]
      have h1 : (handleScroll elems st y).1.ticking = true := by simp [handleScroll, hst]
      rw [h1, if_pos rfl] at hrec
      rw [h2, hst, if_neg (by simp), if_pos rfl]
      omega
    · rw [Bool.not_eq_true] at hst
      cases elems with
      | nil =>
        have h2 : (handleScroll [] st y).2 = false := by simp [handleScroll]
        have h1 : (handleScroll [] st y).1.ticking = st.ticking := by
          simp [handleScroll]
        rw [h1, hst, if_neg (by simp)] at hrec
        rw [h2, hst, if_neg (by simp), if_neg (by simp)]
        omega
      | cons e es =>
        have h2 : (handleScroll (e :: es) st y).2 = true := by
          simp [handleScroll, hst]
        have h1 : (handleScroll (e :: es) st y).1.ticking = true := by
          simp [handleScroll, hst]
        rw [h1, if_pos rfl] at hrec
        rw [h2, hst, if_pos rfl, if_neg (by simp)]
        omega

theorem updateElementPositions_ticking (scY : ℚ) (elems : List Elem) :
    ∀ t : Bool, (updateElementPositions elems scY t).1 =
      if elems.all (fun e => e.props.disabled) then t else false := by
  induction elems with
  | nil =>
    intro t
    simp [updateElementPositions]
  | cons e rest ih =>
    intro t
    cases hde : e.props.disabled
    · simp [updateElementPositions, updateOneElement, hde, ih false, List.all_cons]
    · simp [updateElementPositions, updateOneElement, hde, ih t, List.all_cons]

/-- C7 counterexample: a registry holding a single disabled element.  The frame
callback skips it before the `ticking = false` assignment, so the flag is NOT
cleared when the frame callback iterates this registry. -/
theorem ticking_not_cleared_when_all_disabled :
    disabledElem.props.disabled = true ∧
    (updateElementPositions [disabledElem] 0 true).1 = true ∧
    (updateElementPositions [disabledElem] 0 true).1 ≠ false :=
  ⟨rfl, rfl, by decide⟩

/-- C7 (amended): a scroll event sets the flag only when it is not already set
and the registry is non-empty (so a burst of scroll events starting idle
requests at most one frame), and the frame callback clears the flag exactly
when the registry contains at least one non-disabled element — a registry
whose elements are all disabled (or empty) leaves the flag unchanged. -/
theorem ticking_flag_machine :
    (∀ (elems : List Elem) (st : ScrollState) (y : ℚ),
      (handleScroll elems st y).1.ticking = (st.ticking || !elems.isEmpty) ∧
      (handleScroll elems st y).2 = (!st.ticking && !elems.isEmpty)) ∧
    (∀ (elems : List Elem) (st : ScrollState) (ys : List ℚ), st.ticking = false →
      (scrollBurst elems st ys).2 ≤ 1) ∧
    (∀ (elems : List Elem) (scY : ℚ) (t : Bool),
      (updateElementPositions elems scY t).1 =
        if elems.all (fun e => e.props.disabled) then t else false) := by
  refine ⟨?_, ?_, ?_⟩
  · intro elems st y
    cases hst : st.ticking <;> cases elems <;> simp [handleScroll, hst]
  · intro elems st ys hst
    have h := scrollBurst_count_le elems ys st
    rw [hst] at h
    simpa using h
  · exact fun elems scY t => updateElementPositions_ticking scY elems t

/-- C7 witness: a three-event burst from idle over a non-empty registry
requests at most one frame, and a frame pass over a registry with one enabled
element clears the flag. -/
theorem ticking_flag_machine_witness :
    (scrollBurst [disabledElem] ⟨0, none, false⟩ [1, 2, 3]).2 ≤ 1 ∧
    (updateElementPositions [mkElem false false 5 105 50 200] 5 true).1 = false := by
  constructor
  · exact ticking_flag_machine.2.1 [disabledElem] ⟨0, none, false⟩ [1, 2, 3] rfl
  · have h := ticking_flag_machine.2.2 [mkElem false false 5 105 50 200] 5 true
    simpa [mkElem, sampleProps] using h

theorem goodRegistry_init : goodRegistry initRegistry :=
  ⟨List.sorted_nil, fun e he => absurd he (List.not_mem_nil e)⟩

theorem goodRegistry_applyOp (r : Registry) (op : RegistryOp)
    (hg : goodRegistry r) (hf : op.idFree) : goodRegistry (applyOp r op) := by
  obtain ⟨hs, hb⟩ := hg
  cases op with
  | create opts =>
    simp only [RegistryOp.idFree, Options.idFree] at hf
    simp only [applyOp, createElement, hf, Option.getD_none]
    constructor
    · rw [List.map_append]
      refine List.pairwise_append.mpr ⟨hs, List.sorted_singleton _, ?_⟩
      intro a ha b hbb
      simp only [List.map_cons, List.map_nil, List.mem_singleton] at hbb
      subst hbb
      obtain ⟨e, he, rfl⟩ := List.mem_map.mp ha
      have := hb e he
      omega
    · intro e he
      dsimp only at he ⊢
      rcases List.mem_append.mp he with h | h
      · have := hb e h
        omega
      · simp only [List.mem_singleton] at h
        subst h
        dsimp only
        omega
  | update tid opts =>
    simp only [RegistryOp.idFree, Options.idFree] at hf
    simp only [applyOp, updateElement]
    cases hfi : findIndexJs (fun el => el.id == tid) r.elements with
    | none => exact ⟨hs, hb⟩
    | some i =>
      obtain ⟨hlt, el, hel, _⟩ := findIndexJs_get _ _ i hfi
      have hel' : r.elements[i]? = some el := by
        rw [← List.get?_eq_getElem?]
        exact hel
      have hid : (mergeOptions (r.elements.get? i) opts).id = el.id := by
        simp [mergeOptions, hf, hel']
      constructor
      · rw [map_id_set r.elements i _ el hel hid]
        exact hs
      · intro e he
        rcases List.mem_or_eq_of_mem_set he with h | h
        · exact hb e h
        · subst h
          rw [hid]
          exact hb el (List.get?_mem hel)
  | remove x =>
    simp only [applyOp, removeElement]
    constructor
    · exact hs.sublist ((List.erase_sublist x r.elements).map _)
    · intro e he
      exact hb e (List.mem_of_mem_erase he)

theorem goodRegistry_runOps (ops : List RegistryOp) :
    ∀ r : Registry, goodRegistry r → (∀ op ∈ ops, op.idFree) →
      goodRegistry (runOps r ops) := by
  induction ops with
  | nil => exact fun r hg _ => hg
  | cons op ops ih =>
    intro r hg hf
    exact ih _ (goodRegistry_applyOp r op hg (hf op (List.mem_cons_self _ _)))
      fun o ho => hf o (List.mem_cons_of_mem _ ho)

/-- C9 counterexample: an `id` key inside the options object wins both in
`createElement`'s spread `{id, ...options}` (the created element gets id 999,
not the assigned counter value 1) and in `updateElement`'s `Object.assign`
merge (an existing element's id 1 is rewritten to 5). -/
theorem createElement_id_overridden :
    (createElement initRegistry ⟨some 999, some sampleProps⟩).2.1.id = 999 ∧
    (createElement initRegistry ⟨some 999, some sampleProps⟩).1.nextId = 1 ∧
    (updateElement ⟨[⟨1, some sampleProps⟩], 1, none⟩ 1
        ⟨some 5, none⟩).1.elements.map (·.id) = [5] :=
  ⟨rfl, rfl, rfl⟩

/-- C9 (amended): provided no options object carries an `id` key of its own,
element ids are unique and monotonically assigned at creation and never change:
any sequence of such operations from the initial registry yields ids in
strictly increasing creation order (hence pairwise distinct), `updateElement`
preserves every entry's id, and `createElement` appends an element whose id is
the incremented counter. -/
theorem registry_id_invariant (ops : List RegistryOp) (r : Registry) (tid : Int)
    (opts : Options) :
    ((∀ op ∈ ops, op.idFree) →
      ((runOps initRegistry ops).elements.map (·.id)).Sorted (· < ·) ∧
      ((runOps initRegistry ops).elements.map (·.id)).Pairwise (· ≠ ·)) ∧
    (opts.idFree →
      (updateElement r tid opts).1.elements.map (·.id) =
        r.elements.map (·.id)) ∧
    (opts.idFree →
      (createElement r opts).2.1.id = r.nextId + 1 ∧
      (createElement r opts).1.elements =
        r.elements ++ [(createElement r opts).2.1]) := by
  refine ⟨?_, ?_, ?_⟩
  · intro hf
    have hg := goodRegistry_runOps ops initRegistry goodRegistry_init hf
    exact ⟨hg.1, hg.1.imp fun h => ne_of_lt h⟩
  · intro hf
    unfold Options.idFree at hf
    cases hfi : findIndexJs (fun el => el.id == tid) r.elements with
    | none => simp only [updateElement, hfi]
    | some i =>
      obtain ⟨hlt, el, hel, _⟩ := findIndexJs_get _ _ i hfi
      have hel' : r.elements[i]? = some el := by
        rw [← List.get?_eq_getElem?]
        exact hel
      simp only [updateElement, hfi]
      exact map_id_set r.elements i _ el hel (by simp [mergeOptions, hf, hel'])
  · intro hf
    unfold Options.idFree at hf
    exact ⟨by simp [createElement, hf], rfl⟩

/-- C9 witness: running create, create, update, remove with id-free options
from the initial registry leaves strictly increasing ids, and an id-free
update of a concrete one-element registry keeps its id list `[1]`. -/
theorem registry_id_invariant_witness :
    ((runOps initRegistry opsEx).elements.map (·.id)).Sorted (· < ·) ∧
    (updateElement ⟨[⟨1, some sampleProps⟩], 1, none⟩ 1
        ⟨none, some disabledProps⟩).1.elements.map (·.id) = [1] := by
  constructor
  · exact ((registry_id_invariant opsEx initRegistry 0 ⟨none, none⟩).1 (by decide)).1
  · have h := (registry_id_invariant [] ⟨[⟨1, some sampleProps⟩], 1, none⟩ 1
      ⟨none, some disabledProps⟩).2.1 rfl
    simpa using h

end Parallax
